import Mathlib

/-!
Shallow embedding of the cutevariant query/filter core:

* `QueryModel` and its paginated load protocol
  (src/cutevariant/gui/plugins/query_view/widgets.py),
* `ValidationGroup.update_query`, the replace-or-append filter update
  (src/cutevariant/gui/plugins/condensedui/widgets.py),
* `AnnotationParser` and the sample loop of `VcfReader.parse_variants`
  (src/cutevariant/core/reader/vcfreader.py).

Python dictionaries are modelled as insertion-ordered association lists
(`pyDictSet` overwrites an existing key in place and appends a fresh key at
the end, exactly like CPython dict assignment).  Python exceptions are
modelled with `Except PyErr`: a function returning `Except.error e` models a
call that raises, and a stateful method that can raise mid-mutation returns
the mutated state paired with `Option PyErr` (the state the object is left
in when the exception propagates).  Python `str` values are processed
through structural recursions over their character lists so that every
definition evaluates inside the kernel.
-/

/-- Python exceptions that the modelled code can raise.  `backendError`
stands for any error raised by the sqlite backend below `cmd.select_cmd` /
`cmd.count_cmd`. -/
inductive PyErr where
  | attributeError
  | indexError
  | keyError
  | backendError
deriving DecidableEq, Repr

deriving instance DecidableEq for Except

/-- Lookup in an insertion-ordered association list (Python `d[k]` /
`k in d`, first binding wins; a well-formed Python dict never has two
bindings for one key). -/
def pyLookup {κ α : Type} [DecidableEq κ] : List (κ × α) → κ → Option α
  | [], _ => none
  | (k, v) :: rest, key => if k = key then some v else pyLookup rest key

/-- Python dict assignment `d[k] = v`: overwrite in place when the key is
present (position preserved), append at the end when absent. -/
def pyDictSet {κ α : Type} [DecidableEq κ] (d : List (κ × α)) (k : κ) (v : α) :
    List (κ × α) :=
  if (pyLookup d k).isSome then d.map (fun p => if p.1 = k then (k, v) else p)
  else d ++ [(k, v)]

/-- Python `str.split(sep)` for a single-character separator, on the
character list (`"".split(sep) = [""]`). -/
def pySplitChars (sep : Char) : List Char → List (List Char)
  | [] => [[]]
  | c :: rest =>
    let r := pySplitChars sep rest
    if c = sep then [] :: r
    else
      match r with
      | h :: t => (c :: h) :: t
      | [] => [[c]]

/-- Python `s.split(sep)` for a one-character separator. -/
def pySplit (s : String) (sep : Char) : List String :=
  (pySplitChars sep s.data).map (fun cs => ⟨cs⟩)

/-- Python `str.lower` (ASCII case folding, which is all the modelled data
uses). -/
def pyLower (s : String) : String :=
  ⟨s.data.map Char.toLower⟩

/-- The whitespace stripped by Python `str.strip()`. -/
def pyIsSpace (c : Char) : Bool :=
  c = ' ' || c = '\t' || c = '\n' || c = '\r' || c = Char.ofNat 11 || c = Char.ofNat 12

/-- Python `str.strip()`. -/
def pyStrip (s : String) : String :=
  ⟨((s.data.dropWhile pyIsSpace).reverse.dropWhile pyIsSpace).reverse⟩

/-- Python `sep.join(xs)`. -/
def pyJoin (sep : String) : List String → String
  | [] => ""
  | [x] => x
  | x :: rest => x ++ sep ++ pyJoin sep rest

/-- A Python value inside a filter tree: scalars, lists and dicts.  Lists
and dicts are represented as explicit cons spines (`vcons`/`dcons`) so that
structural equality is kernel-decidable; `dcons k v rest` is the
insertion-ordered dict whose first binding is `k ↦ v`. -/
inductive FVal where
  | vb : Bool → FVal
  | vs : String → FVal
  | vi : Int → FVal
  | vnil : FVal
  | vcons : FVal → FVal → FVal
  | dnil : FVal
  | dcons : String → FVal → FVal → FVal
deriving DecidableEq, Repr

/-- Turns a Lean list of values into the spine of a Python list literal. -/
def toVList : List FVal → FVal
  | [] => FVal.vnil
  | x :: xs => FVal.vcons x (toVList xs)

/-- A filters dictionary (the top-level Python dict passed around the GUI):
keys such as "$and" mapped to filter values. -/
abbrev Filters := List (String × FVal)

/-- One fetched row: the dict produced by `cmd.select_cmd`, field name to
displayed value (insertion order gives the column order). -/
abbrev Row := List (String × String)

/-- The backend reached through the sqlite connection:
`cmd.select_cmd conn fields source filters limit offset order_desc order_by`
and `cmd.count_cmd conn source filters`.  Both live outside src/ (package
`cutevariant.core.command`), so they are abstract fallible functions here;
an `Except.error` models the call raising. -/
structure Db where
  select : List String → String → Filters → Nat → Int → Bool → Option String →
    Except PyErr (List Row)
  count : String → Filters → Except PyErr Nat

/-- State of `QueryModel` (src/cutevariant/gui/plugins/query_view/widgets.py).
`page` is an `Int` because the page box accepts negative input; `conn` only
records whether a sqlite connection was set. -/
structure QueryModel where
  limit : Nat
  page : Int
  total : Nat
  variants : List Row
  headers : List String
  fields : List String
  filters : Filters
  source : String
  order_by : Option String
  order_desc : Bool
  conn : Option Unit
deriving DecidableEq

/-- `QueryModel.__init__` (limit 50, page 0, default field list, source
"variants", descending order, empty filters). -/
def initQueryModel (conn : Option Unit) : QueryModel :=
  { limit := 50
    page := 0
    total := 0
    variants := []
    headers := []
    fields := ["chr", "pos", "ref", "alt"]
    filters := []
    source := "variants"
    order_by := none
    order_desc := true
    conn := conn }

/-- `QueryModel.load(emit_changed)`.  Returns the state the model is left in
together with the exception that escaped, if any.  Mirrors the source line
by line: early return when `conn is None`; `offset = page * limit`;
`variants.clear()` before the fetch; wholesale replacement of `variants` on
success; headers recomputed from the first row only when the page is
non-empty; when `emit_changed` the total is recomputed by the count query
after the `changed` signal.  There is no `try`/`except` in the source, so a
raising fetch leaves the cleared list behind and the error propagates.
(The unused `reset_page` parameter and the Qt begin/endResetModel and
signal emissions are not modelled.) -/
def load (db : Db) (m : QueryModel) (emit_changed : Bool) :
    QueryModel × Option PyErr :=
  match m.conn with
  | none => (m, none)
  | some _ =>
    let offset : Int := m.page * (m.limit : Int)
    let cleared := { m with variants := [] }
    match db.select m.fields m.source m.filters m.limit offset m.order_desc m.order_by with
    | Except.error e => (cleared, some e)
    | Except.ok vs =>
      let loaded := { cleared with variants := vs }
      let withHeaders :=
        match vs with
        | [] => loaded
        | first :: _ => { loaded with headers := first.map Prod.fst }
      if emit_changed then
        match db.count m.source m.filters with
        | Except.error e => (withHeaders, some e)
        | Except.ok n => ({ withHeaders with total := n }, none)
      else (withHeaders, none)

/-- `QueryModel.hasPage(page)`: `page >= 0 and page * self.limit < self.total`. -/
def hasPage (m : QueryModel) (page : Int) : Bool :=
  decide (0 ≤ page) && decide (page * (m.limit : Int) < (m.total : Int))

/-- `QueryModel.setPage(page)`: only mutates (and reloads, without the
`changed` signal) when the page passes the `hasPage` bound. -/
def setPage (db : Db) (m : QueryModel) (page : Int) : QueryModel × Option PyErr :=
  if hasPage m page then load db { m with page := page } false else (m, none)

/-- `QueryModel.nextPage`. -/
def nextPage (db : Db) (m : QueryModel) : QueryModel × Option PyErr :=
  if hasPage m (m.page + 1) then setPage db m (m.page + 1) else (m, none)

/-- `QueryModel.previousPage`. -/
def previousPage (db : Db) (m : QueryModel) : QueryModel × Option PyErr :=
  if hasPage m (m.page - 1) then setPage db m (m.page - 1) else (m, none)

/-- `QueryModel.firstPage`. -/
def firstPage (db : Db) (m : QueryModel) : QueryModel × Option PyErr :=
  setPage db m 0

/-- `QueryModel.lastPage`: `setPage(int(self.total / self.limit))`.  The
source truncates a float division; for the nonnegative integers involved
this is floor division (`Nat` division here). -/
def lastPage (db : Db) (m : QueryModel) : QueryModel × Option PyErr :=
  setPage db m ((m.total / m.limit : Nat) : Int)

/-- `QueryModel.displayed()`: ids of the first and last displayed variants
together with the total. -/
def displayed (m : QueryModel) : Int × Int × Int :=
  let first_id : Int := (m.limit : Int) * m.page
  let last_id : Int :=
    if hasPage m (m.page + 1) then (m.limit : Int) * (m.page + 1)
    else (m.total : Int)
  (first_id, last_id, m.total)

/-- Widget state of `ValidationGroup` (condensedui): the favorites
checkbox, the six ACMG toggle buttons, and the three line edits
(`tags_exclude` is read by no code path, the source marks it TODO). -/
structure ValidationState where
  fav_checked : Bool
  selected_classifications : List Bool
  tags_include : String
  tags_exclude : String
  comments_search : String
deriving DecidableEq

/-- The `{"favorite": True}` condition appended for the favorites box. -/
def favoriteCond : FVal :=
  FVal.dcons "favorite" (FVal.vb true) FVal.dnil

/-- The `{"classification": {"$in": [...]}}` condition built from the
checked classification indices. -/
def classificationCond (sel : List Bool) : FVal :=
  FVal.dcons "classification"
    (FVal.dcons "$in"
      (toVList ((sel.enum.filter (fun p => p.2)).map (fun p => FVal.vi (Int.ofNat p.1))))
      FVal.dnil)
    FVal.dnil

/-- The `{"$or": [{"tags": {"$has": tag}} ...]}` condition for the
comma-separated include list. -/
def tagsCond (txt : String) : FVal :=
  FVal.dcons "$or"
    (toVList ((pySplit txt ',').map
      (fun tag => FVal.dcons "tags" (FVal.dcons "$has" (FVal.vs tag) FVal.dnil) FVal.dnil)))
    FVal.dnil

/-- The `{"comment": {"$regex": text}}` condition for the comment search. -/
def commentCond (txt : String) : FVal :=
  FVal.dcons "comment" (FVal.dcons "$regex" (FVal.vs txt) FVal.dnil) FVal.dnil

/-- `list(cond.keys())[0]`: raises `IndexError` on an empty dict and
`AttributeError` when the value is not a dict. -/
def pyLeadingKey : FVal → Except PyErr String
  | FVal.dcons k _ _ => Except.ok k
  | FVal.dnil => Except.error PyErr.indexError
  | _ => Except.error PyErr.attributeError

/-- Total variant of `pyLeadingKey` used to state well-formedness. -/
def leadingKey : FVal → Option String
  | FVal.dcons k _ _ => some k
  | _ => none

/-- Python `lst.append(x)` on a filter value; raises when the value is not a
list. -/
def pyListAppendF : FVal → FVal → Except PyErr FVal
  | FVal.vnil, c => Except.ok (FVal.vcons c FVal.vnil)
  | FVal.vcons h t, c => do
    let r ← pyListAppendF t c
    Except.ok (FVal.vcons h r)
  | _, _ => Except.error PyErr.attributeError

/-- The classification scan of `ValidationGroup.update_query`: walk the
`$and` list, overwrite in place the first condition whose leading key equals
the leading key of `cond` (the `break`), append `cond` when the loop falls
through (the `for`/`else`). -/
def replaceOrAppendF : FVal → FVal → Except PyErr FVal
  | FVal.vnil, cond => Except.ok (FVal.vcons cond FVal.vnil)
  | FVal.vcons x xs, cond => do
    let kx ← pyLeadingKey x
    let kc ← pyLeadingKey cond
    if kx = kc then Except.ok (FVal.vcons cond xs)
    else do
      let r ← replaceOrAppendF xs cond
      Except.ok (FVal.vcons x r)
  | _, _ => Except.error PyErr.attributeError

/-- `filters["$and"]` (the key is guaranteed present at every use site). -/
def getAnd (filters : Filters) : Except PyErr FVal :=
  match pyLookup filters "$and" with
  | some v => Except.ok v
  | none => Except.error PyErr.keyError

/-- Every member of the `$and` list is a non-empty dict (what the
classification scan needs in order not to raise). -/
def isCondList : FVal → Bool
  | FVal.vnil => true
  | FVal.vcons c rest => (leadingKey c).isSome && isCondList rest
  | _ => false

/-- The filters dict either has no `$and` entry or maps it to a list of
non-empty dicts. -/
def wfAnd (filters : Filters) : Bool :=
  match pyLookup filters "$and" with
  | none => true
  | some v => isCondList v

/-- The `if "$and" not in filters: filters["$and"] = []` prologue of
`ValidationGroup.update_query`. -/
def ensureAnd (filters : Filters) : Filters :=
  if (pyLookup filters "$and").isSome then filters
  else pyDictSet filters "$and" FVal.vnil

/-- `ValidationGroup.update_query(fields, filters, source)`.  Shallow copies
first (`fields.copy()` / `filters.copy()`); ensures an `$and` list; appends
the favorite condition when the box is checked; when not every
classification is selected builds the `$in` condition and, when at least one
is selected, runs the replace-or-append scan; appends the tags `$or`
condition and the comment `$regex` condition when the line edits are
non-empty (Python truthiness of the strings).  Returns the triple the
source returns; `Except.error` models one of the list/dict operations
raising. -/
def update_query (st : ValidationState) (fields : List String) (filters : Filters)
    (source : String) : Except PyErr (List String × Filters × String) := do
  let filters := ensureAnd filters
  let filters ←
    if st.fav_checked then do
      let v ← getAnd filters
      let v ← pyListAppendF v favoriteCond
      pure (pyDictSet filters "$and" v)
    else pure filters
  let filters ←
    if st.selected_classifications.all (fun b => b) then pure filters
    else
      if st.selected_classifications.any (fun b => b) then do
        let v ← getAnd filters
        let v ← replaceOrAppendF v (classificationCond st.selected_classifications)
        pure (pyDictSet filters "$and" v)
      else pure filters
  let filters ←
    if st.tags_include = "" then pure filters
    else do
      let v ← getAnd filters
      let v ← pyListAppendF v (tagsCond st.tags_include)
      pure (pyDictSet filters "$and" v)
  let filters ←
    if st.comments_search = "" then pure filters
    else do
      let v ← getAnd filters
      let v ← pyListAppendF v (commentCond st.comments_search)
      pure (pyDictSet filters "$and" v)
  return (fields, filters, source)

/-- The filters component of an `update_query` result (used to feed one
application into the next). -/
def resultFilters (r : Except PyErr (List String × Filters × String)) : Filters :=
  match r with
  | Except.ok (_, f, _) => f
  | Except.error _ => []

/-- One entry of `SNPEFF_ANNOTATION_DEFAULT_FIELDS` in vcfreader.py. -/
structure FieldDesc where
  name : String
  category : String
  description : String
  type : String
deriving DecidableEq, Repr

/-- `SNPEFF_ANNOTATION_DEFAULT_FIELDS`: raw lower-cased snpeff header token
to field descriptor, in source order. -/
def SNPEFF_ANNOTATION_DEFAULT_FIELDS : List (String × FieldDesc) :=
  [ ("annotation", { name := "consequence", category := "annotation", description := "consequence", type := "str" })
  , ("annotation_impact", { name := "impact", category := "annotation", description := "impact of variant", type := "str" })
  , ("gene_name", { name := "gene", category := "annotation", description := "gene name", type := "str" })
  , ("gene_id", { name := "gene_id", category := "annotation", description := "gene name", type := "str" })
  , ("feature_id", { name := "transcript", category := "annotation", description := "transcript name", type := "str" })
  , ("transcript_biotype", { name := "biotype", category := "annotation", description := " biotype", type := "str" })
  , ("hgvs.p", { name := "hgvs_p", category := "annotation", description := "protein hgvs", type := "str" })
  , ("hgvs.c", { name := "hgvs_c", category := "annotation", description := "coding hgvs", type := "str" }) ]

/-- `AnnotationParser` state: `fields_index` is `none` until a
`parse_fields` generator has run (the attribute does not exist before
that), then maps split positions to output field names. -/
structure AnnotationParser where
  fields_index : Option (List (Nat × String))
deriving DecidableEq

/-- `AnnotationParser()`: no `fields_index` attribute yet. -/
def newAnnotationParser : AnnotationParser :=
  { fields_index := none }

/-- `AnnotationParser.parse_fields(raw)`, with the generator fully
consumed: split the header on `|`, strip and lower-case each token, keep
the tokens found in the schema (unknown tokens are silently skipped),
record position-to-name in `fields_index` and yield the descriptors in
order. -/
def parse_fields (p : AnnotationParser) (raw : String) :
    AnnotationParser × List FieldDesc :=
  let step := fun (acc : List (Nat × String) × List FieldDesc) (tok : Nat × String) =>
    let key := pyLower (pyStrip tok.2)
    match pyLookup SNPEFF_ANNOTATION_DEFAULT_FIELDS key with
    | some desc => (acc.1 ++ [(tok.1, desc.name)], acc.2 ++ [desc])
    | none => acc
  let r := ((pySplit raw '|').enum).foldl step ([], [])
  ({ p with fields_index := some r.1 }, r.2)

/-- `AnnotationParser.parse_variant(raw)`: split on `|` and keep the
positions registered in `fields_index`.  Reading `self.fields_index` before
any `parse_fields` run raises `AttributeError`. -/
def parse_variant (p : AnnotationParser) (raw : String) :
    Except PyErr (List (String × String)) :=
  match p.fields_index with
  | none => Except.error PyErr.attributeError
  | some idx =>
    Except.ok (((pySplit raw '|').enum).foldl
      (fun acc tok =>
        match pyLookup idx tok.1 with
        | some fieldName => pyDictSet acc fieldName tok.2
        | none => acc)
      [])

/-- A per-sample value as handed out by PyVCF: a scalar or a list (the list
is comma-joined before storage). -/
inductive PySampleVal where
  | scalar : String → PySampleVal
  | arr : List String → PySampleVal

/-- `",".join(str(i) for i in value)` when the value is a list, the raw
value otherwise. -/
def pyJoinVal : PySampleVal → String
  | PySampleVal.scalar s => s
  | PySampleVal.arr xs => pyJoin "," xs

/-- One PyVCF sample call: `sample.sample` (the name) and `sample[field]`
for the FORMAT fields. -/
structure PyVcfSample where
  sample : String
  values : String → PySampleVal

/-- The slice of a PyVCF record that `VcfReader.parse_variants` reads in
its per-sample loop. -/
structure PyVcfRecord where
  CHROM : String
  POS : Int
  REF : String
  ALT : List String
  FORMAT : String
  samples : List PyVcfSample

/-- A sample dict (string keys, string values, insertion ordered). -/
abbrev PyDict := List (String × String)

/-- The writes one iteration of the sample loop performs, in order:
`sample_data["name"] = sample.sample`, then one write per FORMAT field. -/
def sampleKVs (fmt : String) (s : PyVcfSample) : List (String × String) :=
  ("name", s.sample) :: (pySplit fmt ':').map (fun f => (f, pyJoinVal (s.values f)))

/-- One iteration of the sample loop applied to a sample dict. -/
def write_sample (d : PyDict) (fmt : String) (s : PyVcfSample) : PyDict :=
  (sampleKVs fmt s).foldl (fun d p => pyDictSet d p.1 p.2) d

/-- One iteration of the sample loop on the mutable state: the accumulated
`variant["samples"]` list of heap addresses and the heap of allocated
dicts.  `sample_data` is the single dict allocated before the loop, living
at address 0; the iteration mutates it in place and appends its address
again. -/
def sample_loop_step (fmt : String) (acc : List Nat × List PyDict) (s : PyVcfSample) :
    List Nat × List PyDict :=
  let d := acc.2.getD 0 []
  let d2 := write_sample d fmt s
  (acc.1 ++ [0], acc.2.set 0 d2)

/-- The `if record.samples:` block of `VcfReader.parse_variants`: allocate
`sample_data = {}` once (heap address 0), then run the per-sample loop.
Returns `none` when the record has no samples (no "samples" key is
created), otherwise the list of heap addresses stored in
`variant["samples"]` and the heap. -/
def parse_variants_samples (rec : PyVcfRecord) : Option (List Nat × List PyDict) :=
  if rec.samples.isEmpty then none
  else some (rec.samples.foldl (sample_loop_step rec.FORMAT) ([], [[]]))

/-- The last binding for a key in a write sequence (used to characterise a
fold of dict assignments). -/
def lastVal {κ α : Type} [DecidableEq κ] : List (κ × α) → κ → Option α
  | [], _ => none
  | (k, v) :: rest, key =>
    match lastVal rest key with
    | some w => some w
    | none => if k = key then some v else none

/-- A backend whose select yields an empty page and whose count yields 125. -/
def dbOk : Db :=
  { select := fun _ _ _ _ _ _ _ => Except.ok []
    count := fun _ _ => Except.ok 125 }

/-- A backend whose select raises (translation or execution failure). -/
def dbFail : Db :=
  { select := fun _ _ _ _ _ _ _ => Except.error PyErr.backendError
    count := fun _ _ => Except.ok 0 }

/-- A freshly initialised model over a connection, after a count of 125. -/
def m125 : QueryModel :=
  { initQueryModel (some ()) with total := 125 }

/-- The same model with a total that is an exact multiple of the limit. -/
def m100 : QueryModel :=
  { m125 with total := 100 }

/-- A model holding a previously loaded non-empty page. -/
def mLoaded : QueryModel :=
  { m125 with
    variants := [[("chr", "7"), ("pos", "117559590")]]
    headers := ["chr", "pos"] }

/-- Widget state with only the favorites checkbox active (all six
classifications selected, both line edits empty). -/
def stFavOnly : ValidationState :=
  { fav_checked := true
    selected_classifications := [true, true, true, true, true, true]
    tags_include := ""
    tags_exclude := ""
    comments_search := "" }

/-- Widget state with only a partial classification selection active. -/
def stClassOnly : ValidationState :=
  { fav_checked := false
    selected_classifications := [true, false, true, false, false, false]
    tags_include := ""
    tags_exclude := ""
    comments_search := "" }

/-- First-wins choice on options, used to state the dict-fold lemmas. -/
def orElseO {α : Type} : Option α → Option α → Option α
  | some w, _ => some w
  | none, b => b

/-- A first sample (name NA12877, GT 0/1, AD a list value). -/
def sampleA : PyVcfSample :=
  { sample := "NA12877"
    values := fun f =>
      if f = "GT" then PySampleVal.scalar "0/1" else PySampleVal.arr ["12", "9"] }

/-- A second sample (name NA12878, GT 1/1, AD a list value). -/
def sampleB : PyVcfSample :=
  { sample := "NA12878"
    values := fun f =>
      if f = "GT" then PySampleVal.scalar "1/1" else PySampleVal.arr ["7", "3"] }

/-- A record with two samples and FORMAT `GT:AD`. -/
def recTwoSamples : PyVcfRecord :=
  { CHROM := "chr7"
    POS := 117559590
    REF := "G"
    ALT := ["A"]
    FORMAT := "GT:AD"
    samples := [sampleA, sampleB] }

theorem load_conn_none (db : Db) (m : QueryModel) (emit : Bool) (h : m.conn = none) :
    load db m emit = (m, none) := by
  simp [load, h]

theorem load_false_total (db : Db) (m : QueryModel) :
    (load db m false).1.total = m.total := by
  cases hc : m.conn with
  | none => simp [load, hc]
  | some u =>
    cases hs : db.select m.fields m.source m.filters m.limit (m.page * (m.limit : Int)) m.order_desc m.order_by with
    | error e => simp [load, hc, hs]
    | ok vs => cases vs <;> simp [load, hc, hs]

theorem load_false_page (db : Db) (m : QueryModel) :
    (load db m false).1.page = m.page := by
  cases hc : m.conn with
  | none => simp [load, hc]
  | some u =>
    cases hs : db.select m.fields m.source m.filters m.limit (m.page * (m.limit : Int)) m.order_desc m.order_by with
    | error e => simp [load, hc, hs]
    | ok vs => cases vs <;> simp [load, hc, hs]

theorem setPage_total (db : Db) (m : QueryModel) (n : Int) :
    (setPage db m n).1.total = m.total := by
  cases h : hasPage m n <;> simp [setPage, h, load_false_total]

/-- Claim C3: with `total_row_count = 125` and `limit = 50`, `hasPage` holds
exactly for pages 0, 1, 2; `displayed()` yields `(0, 50, 125)`,
`(50, 100, 125)` and `(100, 125, 125)` on those pages (so they span 50, 50
and 25 rows); and `lastPage()` lands on page 2. -/
theorem pagination_boundary_125_50 :
    (hasPage m125 0 = true ∧ hasPage m125 1 = true ∧ hasPage m125 2 = true ∧
      hasPage m125 3 = false) ∧
    displayed m125 = (0, 50, 125) ∧
    displayed { m125 with page := 1 } = (50, 100, 125) ∧
    displayed { m125 with page := 2 } = (100, 125, 125) ∧
    (lastPage dbOk m125).1.page = 2 := by
  decide

/-- Claim C4: when `hasPage n` fails (`n < 0` or `n * limit ≥ total`),
`setPage n` leaves the whole model state unchanged and raises nothing, and
so do `nextPage` and `previousPage` when their target page is out of
bounds. -/
theorem out_of_bounds_page_noop (db : Db) (m : QueryModel) (n : Int) :
    (hasPage m n = false → setPage db m n = (m, none)) ∧
    (hasPage m (m.page + 1) = false → nextPage db m = (m, none)) ∧
    (hasPage m (m.page - 1) = false → previousPage db m = (m, none)) := by
  refine ⟨fun h => ?_, fun h => ?_, fun h => ?_⟩ <;>
    simp [setPage, nextPage, previousPage, h]

theorem out_of_bounds_page_noop_witness :
    hasPage m125 3 = false ∧ setPage dbOk m125 3 = (m125, none) :=
  ⟨by decide, (out_of_bounds_page_noop dbOk m125 3).1 (by decide)⟩

/-- Claim C9: when the total is a positive exact multiple of the limit,
`lastPage` computes the page index `total / limit`, which fails the
`hasPage` bound, so the model (current page and cached rows included) is
left unchanged and nothing is reloaded. -/
theorem lastPage_exact_multiple_noop (db : Db) (m : QueryModel) (k : Nat)
    (ht : m.total = k * m.limit) (hpos : 0 < m.total) :
    lastPage db m = (m, none) := by
  have hl : 0 < m.limit := by
    rcases Nat.eq_zero_or_pos m.limit with h | h
    · rw [h, Nat.mul_zero] at ht
      omega
    · exact h
  have hdiv : m.total / m.limit = k := by
    rw [ht, Nat.mul_div_cancel _ hl]
  have hfalse : hasPage m ((m.total / m.limit : Nat) : Int) = false := by
    unfold hasPage
    rw [hdiv]
    have h2 : ¬ ((k : Int) * (m.limit : Int) < (m.total : Int)) := by
      rw [ht]
      push_cast
      omega
    simp [h2]
  unfold lastPage setPage
  rw [hfalse]
  simp

theorem lastPage_exact_multiple_noop_witness :
    m100.total = 2 * m100.limit ∧ 0 < m100.total ∧
      lastPage dbOk m100 = (m100, none) :=
  ⟨by decide, by decide,
    lastPage_exact_multiple_noop dbOk m100 2 (by decide) (by decide)⟩

/-- Claim C1 fails on the code: starting from a model holding a loaded
non-empty page, a failing fetch does not keep the previous rows (the page
was already cleared) and the failure escapes `load` instead of being caught
and reported. -/
theorem load_failure_counterexample :
    ¬ ((load dbFail mLoaded true).1.variants = mLoaded.variants ∧
      (load dbFail mLoaded true).2 = none) := by
  decide

/-- Claim C1, amended: when the fetch raises, `QueryModel.load` leaves the
model with its cached page already cleared (the previous rows are lost,
replaced by the empty list; page, headers and total are untouched) and the
exception propagates unhandled out of `load`. -/
theorem load_failure_clears_cache (db : Db) (m : QueryModel) (emit : Bool)
    (e : PyErr) (hc : m.conn = some ())
    (hs : db.select m.fields m.source m.filters m.limit (m.page * (m.limit : Int))
      m.order_desc m.order_by = Except.error e) :
    load db m emit = ({ m with variants := [] }, some e) := by
  simp [load, hc, hs]

theorem load_failure_clears_cache_witness :
    mLoaded.conn = some () ∧
    dbFail.select mLoaded.fields mLoaded.source mLoaded.filters mLoaded.limit
      (mLoaded.page * (mLoaded.limit : Int)) mLoaded.order_desc mLoaded.order_by
      = Except.error PyErr.backendError ∧
    load dbFail mLoaded true = ({ mLoaded with variants := [] }, some PyErr.backendError) :=
  ⟨rfl, rfl,
    load_failure_clears_cache dbFail mLoaded true PyErr.backendError rfl rfl⟩

/-- Claim C6: a `load` that fetches zero rows leaves the header list
unchanged; a `load` that fetches a non-empty page recomputes the headers as
the key list of the first fetched row. -/
theorem load_header_stability (db : Db) (m : QueryModel) (emit : Bool)
    (hc : m.conn = some ()) :
    (db.select m.fields m.source m.filters m.limit (m.page * (m.limit : Int))
        m.order_desc m.order_by = Except.ok [] →
      (load db m emit).1.headers = m.headers) ∧
    (∀ r rs,
      db.select m.fields m.source m.filters m.limit (m.page * (m.limit : Int))
        m.order_desc m.order_by = Except.ok (r :: rs) →
      (load db m emit).1.headers = r.map Prod.fst) := by
  constructor
  · intro h
    cases emit with
    | false => simp [load, hc, h]
    | true => cases hcnt : db.count m.source m.filters <;> simp [load, hc, h, hcnt]
  · intro r rs h
    cases emit with
    | false => simp [load, hc, h]
    | true => cases hcnt : db.count m.source m.filters <;> simp [load, hc, h, hcnt]

theorem load_header_stability_witness :
    m125.conn = some () ∧ (load dbOk m125 true).1.headers = m125.headers :=
  ⟨rfl, (load_header_stability dbOk m125 true rfl).1 rfl⟩

/-- Claim C7: a successful `load` with `emit_changed = true` (the
field/filter/source-change path) ends with `total` equal to the result of
the independent count query over the current source and filters, while
`load` with `emit_changed = false` and every page-only operation
(`setPage`, `nextPage`, `previousPage`, `firstPage`, `lastPage`) leave
`total` unchanged. -/
theorem total_recompute_contract (db : Db) (m : QueryModel) (n : Int) :
    (m.conn = some () → (load db m true).2 = none →
      db.count m.source m.filters = Except.ok (load db m true).1.total) ∧
    (load db m false).1.total = m.total ∧
    (setPage db m n).1.total = m.total ∧
    (nextPage db m).1.total = m.total ∧
    (previousPage db m).1.total = m.total ∧
    (firstPage db m).1.total = m.total ∧
    (lastPage db m).1.total = m.total := by
  refine ⟨?_, load_false_total db m, setPage_total db m n, ?_, ?_, ?_, ?_⟩
  · intro hc hok
    cases hs : db.select m.fields m.source m.filters m.limit (m.page * (m.limit : Int))
        m.order_desc m.order_by with
    | error e => simp [load, hc, hs] at hok
    | ok vs =>
      cases hcnt : db.count m.source m.filters with
      | error e => cases vs <;> simp [load, hc, hs, hcnt] at hok
      | ok c => cases vs <;> simp [load, hc, hs, hcnt]
  · cases h : hasPage m (m.page + 1) <;>
      simp [nextPage, h, setPage_total]
  · cases h : hasPage m (m.page - 1) <;>
      simp [previousPage, h, setPage_total]
  · exact setPage_total db m 0
  · exact setPage_total db m _

theorem total_recompute_contract_witness :
    m125.conn = some () ∧ (load dbOk m125 true).2 = none ∧
    dbOk.count m125.source m125.filters = Except.ok (load dbOk m125 true).1.total :=
  ⟨rfl, rfl, (total_recompute_contract dbOk m125 0).1 rfl rfl⟩

/-- Claim C5 fails on the code: `parse_variant` before any `parse_fields`
run raises `AttributeError` (the `fields_index` attribute does not exist)
instead of returning an empty mapping. -/
theorem parse_variant_unprimed_counterexample :
    parse_variant newAnnotationParser "A|missense|TP53" ≠
      Except.ok ([] : List (String × String)) := by
  decide

/-- Claim C5, amended: calling `parse_variant` on any raw string without a
prior `parse_fields` run raises `AttributeError` (it does not return an
empty mapping); the empty-mapping outcome only happens after a
`parse_fields` run that registered no recognized position. -/
theorem parse_variant_unprimed_raises (raw : String) :
    parse_variant newAnnotationParser raw = Except.error PyErr.attributeError := by
  rfl

/-- Claim C8: on header `"Allele|Annotation|Gene_Name"`, `parse_fields`
yields exactly the descriptors named `consequence` and `gene`, in that
order, silently skipping the unmapped `Allele` token; a subsequent
`parse_variant "A|missense|TP53"` yields exactly
`{consequence: "missense", gene: "TP53"}`, dropping the unrecognized
first position. -/
theorem snpeff_resolver_ordering :
    (parse_fields newAnnotationParser "Allele|Annotation|Gene_Name").2 =
      [ { name := "consequence", category := "annotation"
          description := "consequence", type := "str" }
      , { name := "gene", category := "annotation"
          description := "gene name", type := "str" } ] ∧
    parse_variant (parse_fields newAnnotationParser "Allele|Annotation|Gene_Name").1
        "A|missense|TP53" =
      Except.ok [("consequence", "missense"), ("gene", "TP53")] := by
  constructor
  · decide
  · decide

theorem pure_eq_ok {ε α : Type} (a : α) : (pure a : Except ε α) = Except.ok a := rfl

theorem ok_bind {ε α β : Type} (a : α) (f : α → Except ε β) :
    (Except.ok a : Except ε α) >>= f = f a := rfl

theorem pyLookup_append {κ α : Type} [DecidableEq κ] (d1 d2 : List (κ × α)) (key : κ) :
    pyLookup (d1 ++ d2) key =
      match pyLookup d1 key with
      | some v => some v
      | none => pyLookup d2 key := by
  induction d1 with
  | nil => simp [pyLookup]
  | cons p rest ih =>
    obtain ⟨k, v⟩ := p
    by_cases h : k = key <;> simp [pyLookup, h, ih]

theorem pyLookup_map_set {κ α : Type} [DecidableEq κ] (d : List (κ × α)) (k key : κ) (v : α) :
    pyLookup (d.map (fun p => if p.1 = k then (k, v) else p)) key =
      if key = k then ((pyLookup d k).map (fun _ => v)) else pyLookup d key := by
  induction d with
  | nil => by_cases h3 : key = k <;> simp [pyLookup, h3]
  | cons p rest ih =>
    obtain ⟨k1, v1⟩ := p
    by_cases h3 : key = k
    · subst h3
      by_cases h1 : k1 = key
      · subst h1
        simp only [List.map_cons]
        rw [if_true]
        simp [pyLookup, ih]
      · simp only [List.map_cons]
        rw [if_neg h1]
        simp [pyLookup, ih, h1]
    · by_cases h1 : k1 = k
      · subst h1
        simp only [List.map_cons]
        rw [if_true]
        simp [pyLookup, ih, h3, Ne.symm h3]
      · simp only [List.map_cons]
        rw [if_neg h1]
        simp [pyLookup, ih, h1, h3]

theorem pyLookup_eq_none_iff {κ α : Type} [DecidableEq κ] (d : List (κ × α)) (key : κ) :
    pyLookup d key = none ↔ ∀ p ∈ d, p.1 ≠ key := by
  induction d with
  | nil => simp [pyLookup]
  | cons p rest ih =>
    obtain ⟨k, v⟩ := p
    by_cases h : k = key <;> simp [pyLookup, h, ih]

theorem pyLookup_pyDictSet {κ α : Type} [DecidableEq κ] (d : List (κ × α)) (k key : κ) (v : α) :
    pyLookup (pyDictSet d k v) key = if key = k then some v else pyLookup d key := by
  by_cases h : (pyLookup d k).isSome
  · rw [pyDictSet, if_pos h, pyLookup_map_set]
    obtain ⟨w, hw⟩ := Option.isSome_iff_exists.mp h
    rw [hw]
    by_cases h2 : key = k <;> simp [h2]
  · have hn : pyLookup d k = none := Option.not_isSome_iff_eq_none.mp h
    rw [pyDictSet, if_neg h, pyLookup_append]
    by_cases h2 : key = k
    · subst h2
      rw [hn]
      simp [pyLookup]
    · cases hl : pyLookup d key <;> simp [hl, pyLookup, Ne.symm h2, h2]

theorem pyDictSet_of_isSome {κ α : Type} [DecidableEq κ] (d : List (κ × α)) (k : κ) (w : α)
    (h : (pyLookup d k).isSome = true) :
    pyDictSet d k w = d.map (fun p => if p.1 = k then (k, w) else p) := by
  simp only [pyDictSet]
  rw [if_pos h]

theorem pyDictSet_of_none {κ α : Type} [DecidableEq κ] (d : List (κ × α)) (k : κ) (w : α)
    (h : pyLookup d k = none) :
    pyDictSet d k w = d ++ [(k, w)] := by
  simp only [pyDictSet]
  rw [if_neg]
  simp [h]

theorem pyDictSet_pyDictSet {κ α : Type} [DecidableEq κ] (d : List (κ × α)) (k : κ) (v w : α) :
    pyDictSet (pyDictSet d k v) k w = pyDictSet d k w := by
  have h2 : (pyLookup (pyDictSet d k v) k).isSome = true := by
    rw [pyLookup_pyDictSet]
    simp
  rw [pyDictSet_of_isSome (pyDictSet d k v) k w h2]
  by_cases h : (pyLookup d k).isSome
  · rw [pyDictSet_of_isSome d k v h, pyDictSet_of_isSome d k w h, List.map_map]
    apply List.map_congr_left
    intro p _
    by_cases hp : p.1 = k <;> simp [Function.comp, hp]
  · have hn : pyLookup d k = none := Option.not_isSome_iff_eq_none.mp h
    have hkeys : ∀ p ∈ d, p.1 ≠ k := (pyLookup_eq_none_iff d k).mp hn
    rw [pyDictSet_of_none d k v hn, pyDictSet_of_none d k w hn, List.map_append]
    have hd : d.map (fun p => if p.1 = k then (k, w) else p) = d := by
      conv_rhs => rw [← List.map_id d]
      apply List.map_congr_left
      intro p hp
      simp [hkeys p hp]
    simp [hd]

theorem ensureAnd_isSome (f : Filters) : (pyLookup (ensureAnd f) "$and").isSome = true := by
  unfold ensureAnd
  by_cases h : (pyLookup f "$and").isSome
  · simp [h]
  · simp [h, pyLookup_pyDictSet]

theorem ensureAnd_idem (f : Filters) : ensureAnd (ensureAnd f) = ensureAnd f := by
  conv_lhs => rw [ensureAnd]
  simp [ensureAnd_isSome]

theorem ensureAnd_wf (f : Filters) (h : wfAnd f = true) :
    ∃ v, pyLookup (ensureAnd f) "$and" = some v ∧ isCondList v = true := by
  unfold ensureAnd
  cases hl : pyLookup f "$and" with
  | none =>
    refine ⟨FVal.vnil, ?_, rfl⟩
    simp [hl, pyLookup_pyDictSet]
  | some v =>
    refine ⟨v, by simp [hl], ?_⟩
    simp [wfAnd, hl] at h
    exact h

theorem leadingKey_ok (x : FVal) (h : (leadingKey x).isSome = true) :
    ∃ kx, pyLeadingKey x = Except.ok kx := by
  cases x with
  | dcons k v rest => exact ⟨k, rfl⟩
  | vb b => simp [leadingKey] at h
  | vs s => simp [leadingKey] at h
  | vi i => simp [leadingKey] at h
  | vnil => simp [leadingKey] at h
  | vcons a b => simp [leadingKey] at h
  | dnil => simp [leadingKey] at h

theorem replaceOrAppendF_idem (v c : FVal) (kc : String)
    (hc : pyLeadingKey c = Except.ok kc) (hwf : isCondList v = true) :
    ∃ r, replaceOrAppendF v c = Except.ok r ∧ replaceOrAppendF r c = Except.ok r := by
  induction v with
  | vnil =>
    refine ⟨FVal.vcons c FVal.vnil, rfl, ?_⟩
    simp [replaceOrAppendF, hc, ok_bind]
  | vcons x xs ihx ihxs =>
    have hx : (leadingKey x).isSome = true := by
      simp [isCondList] at hwf
      exact hwf.1
    have hxs : isCondList xs = true := by
      simp [isCondList] at hwf
      exact hwf.2
    obtain ⟨kx, hkx⟩ := leadingKey_ok x hx
    by_cases he : kx = kc
    · refine ⟨FVal.vcons c xs, ?_, ?_⟩
      · simp [replaceOrAppendF, hkx, hc, he, ok_bind]
      · simp [replaceOrAppendF, hc, ok_bind]
    · obtain ⟨r, h1, h2⟩ := ihxs hxs
      refine ⟨FVal.vcons x r, ?_, ?_⟩
      · simp [replaceOrAppendF, hkx, hc, he, h1, ok_bind]
      · simp [replaceOrAppendF, hkx, hc, he, h2, ok_bind]
  | vb b => simp [isCondList] at hwf
  | vs s => simp [isCondList] at hwf
  | vi i => simp [isCondList] at hwf
  | dnil => simp [isCondList] at hwf
  | dcons k a rest iha ihrest => simp [isCondList] at hwf

theorem ensureAnd_of_isSome (f : Filters) (h : (pyLookup f "$and").isSome = true) :
    ensureAnd f = f := by
  simp only [ensureAnd]
  rw [if_pos h]

theorem update_query_inactive_chars (st : ValidationState) (flds : List String)
    (f : Filters) (src : String)
    (hfav : st.fav_checked = false) (htags : st.tags_include = "")
    (hcom : st.comments_search = "")
    (hclass : (st.selected_classifications.all (fun b => b)) = true ∨
      (st.selected_classifications.any (fun b => b)) = false) :
    update_query st flds f src = Except.ok (flds, ensureAnd f, src) := by
  rcases hclass with h | h
  · simp [update_query, hfav, htags, hcom, h, ok_bind, pure_eq_ok]
  · by_cases hall : (st.selected_classifications.all (fun b => b)) = true <;>
      simp [update_query, hfav, htags, hcom, h, hall, ok_bind, pure_eq_ok]

theorem update_query_class_chars (st : ValidationState) (flds : List String)
    (f : Filters) (src : String)
    (hfav : st.fav_checked = false) (htags : st.tags_include = "")
    (hcom : st.comments_search = "")
    (hall : (st.selected_classifications.all (fun b => b)) = false)
    (hany : (st.selected_classifications.any (fun b => b)) = true)
    (v r : FVal)
    (hv : pyLookup (ensureAnd f) "$and" = some v)
    (hr : replaceOrAppendF v (classificationCond st.selected_classifications) = Except.ok r) :
    update_query st flds f src = Except.ok (flds, pyDictSet (ensureAnd f) "$and" r, src) := by
  have hga : getAnd (ensureAnd f) = Except.ok v := by
    simp [getAnd, hv]
  simp [update_query, hfav, htags, hcom, hall, hany, hga, hr, ok_bind, pure_eq_ok]

/-- Claim C2 fails on the code: with the favorites checkbox active,
`update_query` appends `{"favorite": True}` unconditionally, so applying it
twice on the same widget state appends the condition twice — the result is
not structurally identical to applying it once. -/
theorem update_query_favorite_not_idempotent :
    update_query stFavOnly [] (resultFilters (update_query stFavOnly [] [] "variants"))
        "variants" ≠
      update_query stFavOnly [] [] "variants" := by
  decide

/-- Claim C2, amended: only the classification condition follows the
replace-or-append rule, so `update_query` is idempotent exactly on widget
states where the favorite / tags-include / comment-search inputs are
inactive: for such a state (and a filters dict whose `$and` entry, if
present, is a list of non-empty dicts), applying the operation twice yields
a filter tree structurally identical to applying it once — the
classification condition is overwritten in place when its leading key
already occurs, appended if absent, and unaffected siblings keep their
order; the favorite, tags and comment conditions are instead appended
unconditionally on every call, which defeats idempotence whenever one of
them is active. -/
theorem update_query_classification_idempotent (st : ValidationState)
    (flds : List String) (filters : Filters) (src : String)
    (hfav : st.fav_checked = false) (htags : st.tags_include = "")
    (hcom : st.comments_search = "") (hwf : wfAnd filters = true) :
    update_query st flds (resultFilters (update_query st flds filters src)) src =
      update_query st flds filters src := by
  by_cases hall : (st.selected_classifications.all (fun b => b)) = true
  · rw [update_query_inactive_chars st flds filters src hfav htags hcom (Or.inl hall)]
    simp only [resultFilters]
    rw [update_query_inactive_chars st flds (ensureAnd filters) src hfav htags hcom
      (Or.inl hall), ensureAnd_idem]
  · have hallf : (st.selected_classifications.all (fun b => b)) = false := by
      simpa using hall
    by_cases hany : (st.selected_classifications.any (fun b => b)) = true
    · obtain ⟨v, hv, hcl⟩ := ensureAnd_wf filters hwf
      obtain ⟨r, hr1, hr2⟩ := replaceOrAppendF_idem v
        (classificationCond st.selected_classifications) "classification" rfl hcl
      rw [update_query_class_chars st flds filters src hfav htags hcom hallf hany v r hv hr1]
      simp only [resultFilters]
      have hsome : (pyLookup (pyDictSet (ensureAnd filters) "$and" r) "$and").isSome = true := by
        rw [pyLookup_pyDictSet]
        simp
      have hens : ensureAnd (pyDictSet (ensureAnd filters) "$and" r) =
          pyDictSet (ensureAnd filters) "$and" r :=
        ensureAnd_of_isSome _ hsome
      have hv2 : pyLookup (ensureAnd (pyDictSet (ensureAnd filters) "$and" r)) "$and"
          = some r := by
        rw [hens, pyLookup_pyDictSet]
        simp
      rw [update_query_class_chars st flds (pyDictSet (ensureAnd filters) "$and" r) src
        hfav htags hcom hallf hany r r hv2 hr2]
      rw [hens, pyDictSet_pyDictSet]
    · have hanyf : (st.selected_classifications.any (fun b => b)) = false := by
        simpa using hany
      rw [update_query_inactive_chars st flds filters src hfav htags hcom (Or.inr hanyf)]
      simp only [resultFilters]
      rw [update_query_inactive_chars st flds (ensureAnd filters) src hfav htags hcom
        (Or.inr hanyf), ensureAnd_idem]

theorem update_query_classification_idempotent_witness :
    stClassOnly.fav_checked = false ∧ stClassOnly.tags_include = "" ∧
    stClassOnly.comments_search = "" ∧ wfAnd [] = true ∧
    update_query stClassOnly []
        (resultFilters (update_query stClassOnly [] [] "variants")) "variants" =
      update_query stClassOnly [] [] "variants" :=
  ⟨rfl, rfl, rfl, rfl,
    update_query_classification_idempotent stClassOnly [] [] "variants" rfl rfl rfl rfl⟩

theorem pyLookup_foldl_set {κ α : Type} [DecidableEq κ] (kvs : List (κ × α))
    (d : List (κ × α)) (key : κ) :
    pyLookup (kvs.foldl (fun d p => pyDictSet d p.1 p.2) d) key =
      orElseO (lastVal kvs key) (pyLookup d key) := by
  induction kvs generalizing d with
  | nil => simp [lastVal, orElseO]
  | cons p rest ih =>
    obtain ⟨k, v⟩ := p
    simp only [List.foldl_cons]
    rw [ih]
    by_cases h : k = key
    · subst h
      cases hl : lastVal rest k with
      | some w => simp [lastVal, hl, orElseO]
      | none => simp [lastVal, hl, orElseO, pyLookup_pyDictSet]
    · cases hl : lastVal rest key with
      | some w => simp [lastVal, hl, orElseO]
      | none => simp [lastVal, hl, orElseO, pyLookup_pyDictSet, h, Ne.symm h]

theorem lastVal_none_iff {κ α : Type} [DecidableEq κ] (kvs : List (κ × α)) (key : κ) :
    lastVal kvs key = none ↔ key ∉ kvs.map Prod.fst := by
  induction kvs with
  | nil => simp [lastVal]
  | cons p rest ih =>
    obtain ⟨k, v⟩ := p
    cases hl : lastVal rest key with
    | some w =>
      have hk : key ∈ rest.map Prod.fst := by
        by_contra hc
        rw [ih.mpr hc] at hl
        exact Option.noConfusion hl
      simp [lastVal, hl, hk]
    | none =>
      by_cases h : k = key
      · simp [lastVal, hl, h]
      · simp [lastVal, hl, h, Ne.symm h, ih.mp hl]

theorem sampleKVs_keys (fmt : String) (s : PyVcfSample) :
    (sampleKVs fmt s).map Prod.fst = "name" :: pySplit fmt ':' := by
  simp only [sampleKVs, List.map_cons, List.map_map]
  congr 1
  conv_rhs => rw [← List.map_id (pySplit fmt ':')]
  apply List.map_congr_left
  intro a ha
  rfl

theorem lastVal_sampleKVs_none (fmt : String) (s s2 : PyVcfSample) (key : String)
    (h : lastVal (sampleKVs fmt s) key = none) :
    lastVal (sampleKVs fmt s2) key = none := by
  rw [lastVal_none_iff] at h ⊢
  rw [sampleKVs_keys] at h ⊢
  exact h

theorem pyLookup_write_sample (d : PyDict) (fmt : String) (s : PyVcfSample) (key : String) :
    pyLookup (write_sample d fmt s) key =
      orElseO (lastVal (sampleKVs fmt s) key) (pyLookup d key) := by
  simp only [write_sample]
  exact pyLookup_foldl_set (sampleKVs fmt s) d key

theorem pyLookup_sample_fold (fmt : String) (l : List PyVcfSample) (s0 : PyVcfSample)
    (d : PyDict) (key : String) :
    pyLookup (l.foldl (fun d s => write_sample d fmt s) (write_sample d fmt s0)) key =
      orElseO (lastVal (sampleKVs fmt (l.getLastD s0)) key) (pyLookup d key) := by
  induction l generalizing s0 d with
  | nil =>
    simp only [List.foldl_nil, List.getLastD]
    exact pyLookup_write_sample d fmt s0 key
  | cons s1 rest ih =>
    simp only [List.foldl_cons]
    rw [ih, pyLookup_write_sample]
    have hlast : (s1 :: rest).getLastD s0 = rest.getLastD s1 :=
      List.getLastD_cons s0 s1 rest
    rw [hlast]
    cases hA : lastVal (sampleKVs fmt (rest.getLastD s1)) key with
    | some w => simp [orElseO]
    | none =>
      have hB : lastVal (sampleKVs fmt s0) key = none :=
        lastVal_sampleKVs_none fmt (rest.getLastD s1) s0 key hA
      simp [orElseO, hB]

theorem sample_heap_fold (fmt : String) (l : List PyVcfSample) (lst0 : List Nat) (d0 : PyDict) :
    l.foldl (sample_loop_step fmt) (lst0, [d0]) =
      (lst0 ++ List.replicate l.length 0, [l.foldl (fun d s => write_sample d fmt s) d0]) := by
  induction l generalizing lst0 d0 with
  | nil => simp
  | cons s rest ih =>
    simp only [List.foldl_cons]
    have hstep : sample_loop_step fmt (lst0, [d0]) s = (lst0 ++ [0], [write_sample d0 fmt s]) := by
      simp [sample_loop_step]
    rw [hstep, ih]
    simp [List.replicate_succ, List.append_assoc]

/-- Claim C10: for a record with at least one sample, the sample loop of
`VcfReader.parse_variants` reuses the single `sample_data` dict allocated
before the loop, so `variant["samples"]` holds one entry per sample but
every entry is the very same mapping (the same heap address 0 repeated),
and that mapping's final contents at every key agree with the name and
FORMAT values of the last sample of the record. -/
theorem sample_dict_aliasing (rec : PyVcfRecord) (s0 : PyVcfSample)
    (rest : List PyVcfSample) (hs : rec.samples = s0 :: rest) :
    ∃ heap, parse_variants_samples rec = some (List.replicate rec.samples.length 0, heap) ∧
      ∀ key, pyLookup (heap.headD []) key =
        pyLookup (write_sample [] rec.FORMAT (rest.getLastD s0)) key := by
  refine ⟨[(s0 :: rest).foldl (fun d s => write_sample d rec.FORMAT s) []], ?_, ?_⟩
  · simp only [parse_variants_samples, hs]
    rw [sample_heap_fold]
    simp
  · intro key
    simp only [List.headD]
    rw [List.foldl_cons, pyLookup_sample_fold, pyLookup_write_sample]

theorem sample_dict_aliasing_witness :
    recTwoSamples.samples = sampleA :: [sampleB] ∧
    ∃ heap, parse_variants_samples recTwoSamples =
        some (List.replicate recTwoSamples.samples.length 0, heap) ∧
      ∀ key, pyLookup (heap.headD []) key =
        pyLookup (write_sample [] recTwoSamples.FORMAT ([sampleB].getLastD sampleA)) key :=
  ⟨rfl, sample_dict_aliasing recTwoSamples sampleA [sampleB] rfl⟩
